import Mathlib

/-!
Shallow embedding of the deterministic rule-checking engine of
`src/doc_analyzer/analyzers/rule_checker.py` (class `RuleChecker`), together
with proofs of the specification's claims about it.

Python strings are modelled as lists of Unicode code points (`List Char`).
Python regex character classes (`\w`, `\s`, `str.isdigit`, `str.lower`) are
modelled at their ASCII meaning, which is exact for every string literal and
pattern the checker uses.  `re.finditer` is modelled by a left-to-right,
non-overlapping scan (`finditer` below); for each of the five patterns used
by the checker, greedy sub-matching collapses to maximal-run scanning, which
is worked out in the doc comment of the corresponding `try...At` function.
-/

namespace DocAnalyzer

/-- The `RuleMatch` dataclass: one finding from a deterministic rule check. -/
structure RuleMatch where
  rule_id : String
  rule_name : String
  category : String
  severity : String
  text : String
  suggestion : String
  location : String
  context : String
deriving Repr, DecidableEq

/-- Document text: a Python `str` as its sequence of code points. -/
abbrev Text := List Char

/-- The ASCII double-quote character `"` (code point 34). -/
def dquote : Char := Char.ofNat 34

/-- The ASCII apostrophe character (code point 39). -/
def squote : Char := Char.ofNat 39

/-- The apostrophe as a one-character string. -/
def squoteStr : String := String.mk [squote]

/-- The double quote as a one-character string. -/
def dquoteStr : String := String.mk [dquote]

/-- Python `text[s:e]` for `s ≤ e` (indices clamped to the bounds). -/
def slice (t : Text) (s e : Nat) : Text := (t.drop s).take (e - s)

/-- `_get_line_number`: `text[:position].count('\n') + 1` (1-indexed line). -/
def get_line_number (t : Text) (pos : Nat) : Nat := (t.take pos).count '\n' + 1

/-- Default context-window width of `_get_context` (`context_chars = 30`). -/
def CONTEXT_CHARS : Nat := 30

/-- `_get_context`: up to `CONTEXT_CHARS` characters around the span
`[s, e)`, with an ellipsis on each side that was cut short.  Python's
`max(0, start - context_chars)` is truncated subtraction on `Nat`. -/
def get_context (t : Text) (s e : Nat) : String :=
  let ctx_start := s - CONTEXT_CHARS
  let ctx_end := min t.length (e + CONTEXT_CHARS)
  let pre := if 0 < ctx_start then "..." else ""
  let suf := if ctx_end < t.length then "..." else ""
  pre ++ String.mk (slice t ctx_start ctx_end) ++ suf

/-- Python regex `\w` (and `str.isalnum`-style word characters) at ASCII:
letters, digits and underscore. -/
def isWordChar (c : Char) : Bool := c.isAlpha || c.isDigit || c = '_'

/-- Python regex `\s` (and `str` whitespace) at ASCII:
space, tab, newline, carriage return, vertical tab, form feed. -/
def isSpaceChar (c : Char) : Bool :=
  c = ' ' || c = '\t' || c = '\n' || c = '\r' || c = Char.ofNat 11 || c = Char.ofNat 12

/-- Length of the run of characters satisfying `p` that starts at index `i`. -/
def runLen (t : Text) (p : Char → Bool) (i : Nat) : Nat :=
  ((t.drop i).takeWhile p).length

/-- The loop of `re.finditer`: starting at position `i`, repeatedly attempt a
match; a successful attempt at `i` returns its end position `e` together with
a payload, the scan emits the payload and resumes at `e` (matches do not
overlap); a failed attempt advances one position.  `fuel` bounds the number
of iterations; since the position strictly increases and the loop stops once
it passes `len`, a fuel of `len + 1` always suffices. -/
def finditerAux (len : Nat) (tryAt : Nat → Option (Nat × α)) :
    Nat → Nat → List α
  | 0, _ => []
  | fuel + 1, i =>
    if len ≤ i then []
    else
      match tryAt i with
      | some (e, a) => a :: finditerAux len tryAt fuel (max e (i + 1))
      | none => finditerAux len tryAt fuel (i + 1)

/-- `re.finditer` over the whole text. -/
def finditer (t : Text) (tryAt : Nat → Option (Nat × α)) : List α :=
  finditerAux t.length tryAt (t.length + 1) 0

/-- Python `needle in hay` for strings: `needle` occurs as a contiguous
substring of `hay`. -/
def containsSub (needle : List Char) : List Char → Bool
  | [] => needle.isEmpty
  | c :: rest => needle.isPrefixOf (c :: rest) || containsSub needle rest

/-- Loop of Python `str.count` for a substring needle: non-overlapping
occurrences, scanning left to right, resuming after each hit.  Faithful for
a non-empty needle (the only use below has a 15-character needle);
`fuel = length + 1` suffices since each step consumes at least one
character. -/
def countSubAux (needle : List Char) : Nat → List Char → Nat
  | 0, _ => 0
  | _, [] => 0
  | fuel + 1, c :: rest =>
    if needle.isPrefixOf (c :: rest) then
      countSubAux needle fuel ((c :: rest).drop needle.length) + 1
    else countSubAux needle fuel rest

/-- Python `hay.count(needle)` for a non-empty substring needle. -/
def countSub (needle hay : List Char) : Nat :=
  countSubAux needle (hay.length + 1) hay

/-- Python `repr` of a string, specialised to the strings it is applied to
here: a run of spaces contains no quote, backslash or control character, so
`repr` wraps it in single quotes unchanged. -/
def pyRepr (s : String) : String := squoteStr ++ s ++ squoteStr

/-- Match attempt for `r' {2,}'` at position `i`: the greedy quantifier
takes the whole run of spaces starting at `i`, and the attempt succeeds iff
that run has length at least 2.  Payload: the span `(i, i + k)`. -/
def tryDoubleSpaceAt (t : Text) (i : Nat) : Option (Nat × (Nat × Nat)) :=
  let k := runLen t (fun c => c = ' ') i
  if 2 ≤ k then some (i + k, (i, i + k)) else none

/-- Spans found by `re.finditer(r' {2,}', text)`. -/
def doubleSpaceSpans (t : Text) : List (Nat × Nat) :=
  finditer t (tryDoubleSpaceAt t)

/-- `_check_double_spaces`: double (or more) consecutive spaces, skipping
runs that start a line (indentation), reporting the `repr` of the run. -/
def check_double_spaces (t : Text) : List RuleMatch :=
  (doubleSpaceSpans t).filterMap fun se =>
    if se.1 = 0 ∨ t.get? (se.1 - 1) = some '\n' then none
    else some
      { rule_id := "double-spaces"
        rule_name := "Double Spaces"
        category := "spacing"
        severity := "medium"
        text := pyRepr (String.mk (slice t se.1 se.2))
        suggestion := "Replace with single space"
        location := "Line " ++ toString (get_line_number t se.1)
          ++ ", position " ++ toString se.1
        context := get_context t se.1 se.2 }

/-- Match attempt for `r'\b(\w+)\s+\1\b'` with `re.IGNORECASE` at position
`i`.  The greedy `\w+` is forced to take the whole word run (any shorter
group is followed by a word character, on which `\s+` fails) and `\s+` is
forced to take the whole whitespace run (any shorter run is followed by
whitespace, on which the backreference fails), so the pattern matches at `i`
iff a word boundary precedes `i` and the text continues with a word run, a
non-empty whitespace run, a case-insensitive copy of the word, and a word
boundary.  Payload: `(start, end, group 1)`. -/
def tryRepeatedAt (t : Text) (i : Nat) : Option (Nat × (Nat × Nat × Text)) :=
  if (t.get? i).any isWordChar ∧ (i = 0 ∨ ¬ (t.get? (i - 1)).any isWordChar) then
    let k := runLen t isWordChar i
    let w := slice t i (i + k)
    let ws := runLen t isSpaceChar (i + k)
    if 1 ≤ ws then
      let j := i + k + ws
      let w2 := slice t j (j + k)
      if w2.length = k ∧ w.map Char.toLower = w2.map Char.toLower
          ∧ ¬ (t.get? (j + k)).any isWordChar then
        some (j + k, (i, j + k, w))
      else none
    else none
  else none

/-- The stoplist of intentionally repeated words. -/
def repeatedWordStoplist : List String := ["that", "had", "very", "really", "blah"]

/-- `_check_repeated_words`: repeated consecutive words like `the the`,
skipping the stoplist (compared on the lower-cased first group). -/
def check_repeated_words (t : Text) : List RuleMatch :=
  (finditer t (tryRepeatedAt t)).filterMap fun m =>
    if String.mk (m.2.2.map Char.toLower) ∈ repeatedWordStoplist then none
    else some
      { rule_id := "repeated-words"
        rule_name := "Repeated Word"
        category := "grammar"
        severity := "high"
        text := String.mk (slice t m.1 m.2.1)
        suggestion := "Remove duplicate " ++ squoteStr ++ String.mk m.2.2 ++ squoteStr
        location := "Line " ++ toString (get_line_number t m.1)
        context := get_context t m.1 m.2.1 }

/-- The punctuation set of the spacing checks: `[.,;:!?]`. -/
def punctChars : List Char := ['.', ',', ';', ':', '!', '?']

/-- Match attempt for `r'([.,;:!?])([A-Za-z])'` at position `i`.
Payload: `(start, punctuation, letter)`. -/
def tryPunctLetterAt (t : Text) (i : Nat) : Option (Nat × (Nat × Char × Char)) :=
  match t.get? i, t.get? (i + 1) with
  | some p, some c =>
    if p ∈ punctChars ∧ c.isAlpha then some (i + 2, (i, p, c)) else none
  | _, _ => none

/-- The URL/domain markers looked for in the 10 characters before a match. -/
def urlMarkers : List (List Char) :=
  ["http".data, "www.".data, "ftp".data, ".com".data, ".org".data]

/-- `_check_missing_space_after_punct`: punctuation immediately followed by
a letter, skipping URL-like lookback windows and decimal points. -/
def check_missing_space_after_punct (t : Text) : List RuleMatch :=
  (finditer t (tryPunctLetterAt t)).filterMap fun m =>
    if urlMarkers.any (fun u => containsSub u ((slice t (m.1 - 10) m.1).map Char.toLower)) then
      none
    else if m.2.1 = '.' ∧ 0 < m.1 ∧ (t.get? (m.1 - 1)).any Char.isDigit then
      none
    else some
      { rule_id := "missing-space-after-punct"
        rule_name := "Missing Space After Punctuation"
        category := "spacing"
        severity := "medium"
        text := String.mk (slice t m.1 (m.1 + 2))
        suggestion := String.mk [m.2.1, ' ', m.2.2]
        location := "Line " ++ toString (get_line_number t m.1)
        context := get_context t m.1 (m.1 + 2) }

/-- Match attempt for `r'(\w)\s+([.,;:!?])'` at position `i`: the greedy
`\s+` is forced to take the whole whitespace run (any shorter run is
followed by whitespace, which is not punctuation), so the pattern matches at
`i` iff `t[i]` is a word character followed by a non-empty whitespace run
and then a punctuation character.  Payload: `(start, end, group 1, group 2)`. -/
def trySpacePunctAt (t : Text) (i : Nat) : Option (Nat × (Nat × Nat × Char × Char)) :=
  match t.get? i with
  | some c =>
    if isWordChar c then
      let ws := runLen t isSpaceChar (i + 1)
      if 1 ≤ ws then
        match t.get? (i + 1 + ws) with
        | some p =>
          if p ∈ punctChars then some (i + 1 + ws + 1, (i, i + 1 + ws + 1, c, p))
          else none
        | none => none
      else none
    else none
  | none => none

/-- `_check_space_before_punct`: a word character, whitespace, then
punctuation; no exclusions. -/
def check_space_before_punct (t : Text) : List RuleMatch :=
  (finditer t (trySpacePunctAt t)).map fun m =>
    { rule_id := "space-before-punct"
      rule_name := "Space Before Punctuation"
      category := "spacing"
      severity := "medium"
      text := String.mk (slice t m.1 m.2.1)
      suggestion := String.mk [m.2.2.1, m.2.2.2]
      location := "Line " ++ toString (get_line_number t m.1)
      context := get_context t m.1 m.2.1 }

/-- The three bracket pairs checked by `_check_unclosed_brackets`. -/
def bracketPairs : List (Char × Char) :=
  [('(', ')'), ('[', ']'), (Char.ofNat 123, Char.ofNat 125)]

/-- The loop body of `_check_unclosed_brackets` for one bracket pair:
compare the document-wide counts of the opening and closing character and
emit one direction-aware match when they differ. -/
def bracketPairMatches (t : Text) (oc : Char × Char) : List RuleMatch :=
  let open_count := t.count oc.1
  let close_count := t.count oc.2
  if open_count = close_count then []
  else if close_count < open_count then
    let diff := open_count - close_count
    [{ rule_id := "unclosed-brackets"
       rule_name := "Unclosed Bracket"
       category := "formatting"
       severity := "high"
       text := toString diff ++ " unclosed " ++ squoteStr ++ String.mk [oc.1] ++ squoteStr
       suggestion := "Add " ++ toString diff ++ " closing "
         ++ squoteStr ++ String.mk [oc.2] ++ squoteStr
       location := "Document-wide"
       context := "Found " ++ toString open_count ++ " "
         ++ squoteStr ++ String.mk [oc.1] ++ squoteStr ++ " but only "
         ++ toString close_count ++ " " ++ squoteStr ++ String.mk [oc.2] ++ squoteStr }]
  else
    let diff := close_count - open_count
    [{ rule_id := "unclosed-brackets"
       rule_name := "Extra Closing Bracket"
       category := "formatting"
       severity := "high"
       text := toString diff ++ " extra " ++ squoteStr ++ String.mk [oc.2] ++ squoteStr
       suggestion := "Remove " ++ toString diff ++ " extra "
         ++ squoteStr ++ String.mk [oc.2] ++ squoteStr ++ " or add opening "
         ++ squoteStr ++ String.mk [oc.1] ++ squoteStr
       location := "Document-wide"
       context := "Found " ++ toString close_count ++ " "
         ++ squoteStr ++ String.mk [oc.2] ++ squoteStr ++ " but only "
         ++ toString open_count ++ " " ++ squoteStr ++ String.mk [oc.1] ++ squoteStr }]

/-- `_check_unclosed_brackets`: each pair evaluated independently, in the
order `()`, `[]`, then braces. -/
def check_unclosed_brackets (t : Text) : List RuleMatch :=
  bracketPairs.flatMap (bracketPairMatches t)

/-- Python `text.split('\n')`: splitting the empty text yields one empty
line, and every newline separates two (possibly empty) lines. -/
def splitLines : Text → List Text
  | [] => [[]]
  | c :: rest =>
    if c = '\n' then [] :: splitLines rest
    else
      match splitLines rest with
      | [] => [[c]]
      | l :: ls => (c :: l) :: ls

/-- Python `line.rstrip()`: drop trailing whitespace. -/
def rstrip (l : Text) : Text := (l.reverse.dropWhile isSpaceChar).reverse

/-- `_check_trailing_whitespace`: one aggregate match counting the lines
that end in whitespace. -/
def check_trailing_whitespace (t : Text) : List RuleMatch :=
  let lines := splitLines t
  let trailing_count := lines.countP fun l => decide (l ≠ rstrip l)
  if 0 < trailing_count then
    [{ rule_id := "trailing-whitespace"
       rule_name := "Trailing Whitespace"
       category := "formatting"
       severity := "low"
       text := toString trailing_count ++ " line(s) with trailing whitespace"
       suggestion := "Remove trailing spaces"
       location := "Multiple lines"
       context := "Found in " ++ toString trailing_count ++ " of "
         ++ toString lines.length ++ " lines" }]
  else []

/-- Match attempt for `r'\n{3,}'` at position `i`: the greedy quantifier
takes the whole newline run, succeeding iff its length is at least 3.
Payload: the span. -/
def tryBlankLinesAt (t : Text) (i : Nat) : Option (Nat × (Nat × Nat)) :=
  let k := runLen t (fun c => c = '\n') i
  if 3 ≤ k then some (i + k, (i, i + k)) else none

/-- `_check_multiple_blank_lines`: runs of 3 or more newlines; the reported
blank-line count is the run length minus one. -/
def check_multiple_blank_lines (t : Text) : List RuleMatch :=
  (finditer t (tryBlankLinesAt t)).map fun se =>
    { rule_id := "multiple-blank-lines"
      rule_name := "Multiple Blank Lines"
      category := "formatting"
      severity := "low"
      text := toString (se.2 - se.1 - 1) ++ " consecutive blank lines"
      suggestion := "Reduce to single blank line"
      location := "Line " ++ toString (get_line_number t se.1)
      context := "Excessive vertical spacing" }

/-- The argument of the third `count` call on the `curly_single` line of
`_check_inconsistent_quotes` (and the `curly_quotes` line of
`_check_straight_vs_curly_quotes`).  In the source file both curly-quote
characters are in fact the ASCII quote, so the line
`curly_single = text.count(''') + text.count(''')` tokenises with a
triple-quoted string literal in the middle: it is one call counting the
15-character substring `) + text.count(`. -/
def tripleQuoteArg : List Char := ") + text.count(".data

/-- `_check_inconsistent_quotes` as the source file actually reads: both
"curly" double-quote literals are the ASCII `"`, so `curly_double` is twice
`straight_double`, and `curly_single` counts the substring
`) + text.count(` (see `tripleQuoteArg`). -/
def check_inconsistent_quotes (t : Text) : List RuleMatch :=
  let straight_double := t.count dquote
  let curly_double := t.count dquote + t.count dquote
  let straight_single := t.count squote
  let curly_single := countSub tripleQuoteArg t
  (if 0 < straight_double ∧ 0 < curly_double then
    [{ rule_id := "inconsistent-quotes"
       rule_name := "Inconsistent Double Quotes"
       category := "formatting"
       severity := "low"
       text := "Mix of " ++ dquoteStr ++ " (" ++ toString straight_double
         ++ ") and " ++ dquoteStr ++ dquoteStr ++ "/" ++ dquoteStr ++ dquoteStr
         ++ " (" ++ toString curly_double ++ ")"
       suggestion := "Use consistent quote style throughout"
       location := "Document-wide"
       context := "Consider using curly quotes for published documents" }]
  else []) ++
  (if 0 < straight_single ∧ 0 < curly_single then
    (if 3 < straight_single ∧ 3 < curly_single then
      [{ rule_id := "inconsistent-quotes"
         rule_name := "Inconsistent Single Quotes/Apostrophes"
         category := "formatting"
         severity := "low"
         text := "Mix of " ++ squoteStr ++ " (" ++ toString straight_single
           ++ ") and " ++ squoteStr ++ squoteStr ++ "/" ++ squoteStr ++ "`"
           ++ " (" ++ toString curly_single ++ ")"
         suggestion := "Use consistent apostrophe style"
         location := "Document-wide"
         context := "May indicate copy-paste from different sources" }]
    else [])
  else [])

/-- `_check_tab_characters`: one aggregate match when any tab is present. -/
def check_tab_characters (t : Text) : List RuleMatch :=
  let tab_count := t.count '\t'
  if 0 < tab_count then
    [{ rule_id := "tab-characters"
       rule_name := "Tab Characters"
       category := "formatting"
       severity := "low"
       text := toString tab_count ++ " tab character(s)"
       suggestion := "Replace tabs with spaces for consistent formatting"
       location := "Multiple locations"
       context := "Tabs may render inconsistently across applications" }]
  else []

/-- Match attempt for `r'(\w)\s*--\s*(\w)'` at position `i`: each greedy
`\s*` is forced to take the whole whitespace run (a shorter one leaves a
whitespace character where `-` or `\w` is required).  Payload:
`(start, end, group 1, group 2)`. -/
def tryDoubleHyphenAt (t : Text) (i : Nat) :
    Option (Nat × (Nat × Nat × Char × Char)) :=
  match t.get? i with
  | some c =>
    if isWordChar c then
      let ws1 := runLen t isSpaceChar (i + 1)
      let j := i + 1 + ws1
      if t.get? j = some '-' ∧ t.get? (j + 1) = some '-' then
        let ws2 := runLen t isSpaceChar (j + 2)
        let p := j + 2 + ws2
        match t.get? p with
        | some d => if isWordChar d then some (p + 1, (i, p + 1, c, d)) else none
        | none => none
      else none
    else none
  | none => none

/-- `_check_double_hyphen_emdash`: `word -- word`, suggesting an em-dash. -/
def check_double_hyphen_emdash (t : Text) : List RuleMatch :=
  (finditer t (tryDoubleHyphenAt t)).map fun m =>
    { rule_id := "double-hyphen-emdash"
      rule_name := "Double Hyphen Instead of Em-Dash"
      category := "formatting"
      severity := "low"
      text := String.mk (slice t m.1 m.2.1)
      suggestion := String.mk [m.2.2.1, '—', m.2.2.2]
      location := "Line " ++ toString (get_line_number t m.1)
      context := get_context t m.1 m.2.1 }

/-- The table of hidden characters, in the insertion order of the Python
dict (which iteration preserves). -/
def hiddenChars : List (Char × String) :=
  [(Char.ofNat 0x200b, "zero-width space"),
   (Char.ofNat 0x200c, "zero-width non-joiner"),
   (Char.ofNat 0x200d, "zero-width joiner"),
   (Char.ofNat 0xfeff, "byte order mark"),
   (Char.ofNat 0xa0, "non-breaking space"),
   (Char.ofNat 0x2060, "word joiner")]

/-- `_check_hidden_characters`: one aggregate match whose context lists each
hidden character type found together with its count. -/
def check_hidden_characters (t : Text) : List RuleMatch :=
  let found := hiddenChars.filterMap fun cn =>
    let count := t.count cn.1
    if 0 < count then some (cn.2, count) else none
  if found ≠ [] then
    [{ rule_id := "hidden-characters"
       rule_name := "Hidden Characters"
       category := "formatting"
       severity := "medium"
       text := "Found hidden characters"
       suggestion := "Remove hidden characters that may cause display issues"
       location := "Document-wide"
       context := String.intercalate ", "
         (found.map fun nc => nc.1 ++ ": " ++ toString nc.2) }]
  else []

/-- `_check_straight_vs_curly_quotes` as the source file actually reads: the
"curly" quote counts are two counts of the ASCII `"` plus one count of the
substring `) + text.count(` (see `tripleQuoteArg`). -/
def check_straight_vs_curly_quotes (t : Text) : List RuleMatch :=
  let straight_quotes := t.count dquote + t.count squote
  let curly_quotes := t.count dquote + t.count dquote + countSub tripleQuoteArg t
  if 10 < straight_quotes ∧ curly_quotes = 0 then
    [{ rule_id := "straight-vs-curly-quotes"
       rule_name := "Straight Quotes Only"
       category := "formatting"
       severity := "low"
       text := toString straight_quotes ++ " straight quotes"
       suggestion := "Consider using curly quotes for professional documents"
       location := "Document-wide"
       context := "Straight quotes are fine for code/technical docs" }]
  else []

/-- `RuleChecker.check_all`: run every check whose rule id is not disabled,
concatenating the results in the fixed declared order. -/
def check_all (disabled_rules : List String) (t : Text) : List RuleMatch :=
  (if "double-spaces" ∈ disabled_rules then [] else check_double_spaces t) ++
  (if "repeated-words" ∈ disabled_rules then [] else check_repeated_words t) ++
  (if "missing-space-after-punct" ∈ disabled_rules then []
   else check_missing_space_after_punct t) ++
  (if "space-before-punct" ∈ disabled_rules then [] else check_space_before_punct t) ++
  (if "unclosed-brackets" ∈ disabled_rules then [] else check_unclosed_brackets t) ++
  (if "trailing-whitespace" ∈ disabled_rules then [] else check_trailing_whitespace t) ++
  (if "multiple-blank-lines" ∈ disabled_rules then [] else check_multiple_blank_lines t) ++
  (if "inconsistent-quotes" ∈ disabled_rules then [] else check_inconsistent_quotes t) ++
  (if "tab-characters" ∈ disabled_rules then [] else check_tab_characters t) ++
  (if "double-hyphen-emdash" ∈ disabled_rules then []
   else check_double_hyphen_emdash t) ++
  (if "hidden-characters" ∈ disabled_rules then [] else check_hidden_characters t) ++
  (if "straight-vs-curly-quotes" ∈ disabled_rules then []
   else check_straight_vs_curly_quotes t)

/-- The registry: the twelve checks with their rule ids, in declared order. -/
def registry : List (String × (Text → List RuleMatch)) :=
  [("double-spaces", check_double_spaces),
   ("repeated-words", check_repeated_words),
   ("missing-space-after-punct", check_missing_space_after_punct),
   ("space-before-punct", check_space_before_punct),
   ("unclosed-brackets", check_unclosed_brackets),
   ("trailing-whitespace", check_trailing_whitespace),
   ("multiple-blank-lines", check_multiple_blank_lines),
   ("inconsistent-quotes", check_inconsistent_quotes),
   ("tab-characters", check_tab_characters),
   ("double-hyphen-emdash", check_double_hyphen_emdash),
   ("hidden-characters", check_hidden_characters),
   ("straight-vs-curly-quotes", check_straight_vs_curly_quotes)]

/-- The declared catalogue order of rule ids. -/
def catalogueOrder : List String := registry.map Prod.fst

/-- Position of a rule id in the declared catalogue order. -/
def ruleIndex (r : String) : Nat := catalogueOrder.indexOf r

/-- Spec-side condition for the missing-space-after-punct rule, written from
the spec's words for comparison with the implementation: one of `. , ; : ! ?`
immediately followed by a letter, except when one of `http`, `www.`, `ftp`,
`.com`, `.org` occurs (case-insensitively) in the 10 characters immediately
before the punctuation, or the punctuation is a decimal point preceded by a
digit. -/
def mspSpec (t : Text) (i : Nat) : Bool :=
  match t.get? i, t.get? (i + 1) with
  | some p, some c =>
    decide (p ∈ punctChars) && c.isAlpha
      && !(urlMarkers.any fun u =>
            containsSub u ((slice t (i - 10) i).map Char.toLower))
      && !(decide (p = '.' ∧ 0 < i ∧ (t.get? (i - 1)).any Char.isDigit))
  | _, _ => false

/-- The match record the missing-space-after-punct check emits for a hit at
position `i`. -/
def mspEmit (t : Text) (i : Nat) : RuleMatch :=
  { rule_id := "missing-space-after-punct"
    rule_name := "Missing Space After Punctuation"
    category := "spacing"
    severity := "medium"
    text := String.mk (slice t i (i + 2))
    suggestion := String.mk [(t.get? i).getD ' ', ' ', (t.get? (i + 1)).getD ' ']
    location := "Line " ++ toString (get_line_number t i)
    context := get_context t i (i + 2) }

/-! ### Helper lemmas -/

lemma check_double_spaces_rule_id (t : Text) :
    ∀ m ∈ check_double_spaces t, m.rule_id = "double-spaces" := by
  intro m hm
  simp only [check_double_spaces, List.mem_filterMap] at hm
  obtain ⟨a, -, ha⟩ := hm
  split at ha
  · exact Option.noConfusion ha
  · injection ha with h; subst h; rfl

lemma check_repeated_words_rule_id (t : Text) :
    ∀ m ∈ check_repeated_words t, m.rule_id = "repeated-words" := by
  intro m hm
  simp only [check_repeated_words, List.mem_filterMap] at hm
  obtain ⟨a, -, ha⟩ := hm
  split at ha
  · exact Option.noConfusion ha
  · injection ha with h; subst h; rfl

lemma check_missing_space_after_punct_rule_id (t : Text) :
    ∀ m ∈ check_missing_space_after_punct t, m.rule_id = "missing-space-after-punct" := by
  intro m hm
  simp only [check_missing_space_after_punct, List.mem_filterMap] at hm
  obtain ⟨a, -, ha⟩ := hm
  split at ha
  · exact Option.noConfusion ha
  · split at ha
    · exact Option.noConfusion ha
    · injection ha with h; subst h; rfl

lemma check_space_before_punct_rule_id (t : Text) :
    ∀ m ∈ check_space_before_punct t, m.rule_id = "space-before-punct" := by
  intro m hm
  simp only [check_space_before_punct, List.mem_map] at hm
  obtain ⟨a, -, ha⟩ := hm
  subst ha; rfl

lemma check_unclosed_brackets_rule_id (t : Text) :
    ∀ m ∈ check_unclosed_brackets t, m.rule_id = "unclosed-brackets" := by
  intro m hm
  simp only [check_unclosed_brackets, List.mem_flatMap] at hm
  obtain ⟨oc, -, hm⟩ := hm
  simp only [bracketPairMatches] at hm
  split_ifs at hm <;> simp only [List.mem_singleton, List.not_mem_nil] at hm
  · subst hm; rfl
  · subst hm; rfl

lemma check_trailing_whitespace_rule_id (t : Text) :
    ∀ m ∈ check_trailing_whitespace t, m.rule_id = "trailing-whitespace" := by
  intro m hm
  simp only [check_trailing_whitespace] at hm
  split_ifs at hm <;> simp only [List.mem_singleton, List.not_mem_nil] at hm
  · subst hm; rfl

lemma check_multiple_blank_lines_rule_id (t : Text) :
    ∀ m ∈ check_multiple_blank_lines t, m.rule_id = "multiple-blank-lines" := by
  intro m hm
  simp only [check_multiple_blank_lines, List.mem_map] at hm
  obtain ⟨a, -, ha⟩ := hm
  subst ha; rfl

lemma check_inconsistent_quotes_rule_id (t : Text) :
    ∀ m ∈ check_inconsistent_quotes t, m.rule_id = "inconsistent-quotes" := by
  intro m hm
  simp only [check_inconsistent_quotes] at hm
  rw [List.mem_append] at hm
  rcases hm with hm | hm <;>
    split_ifs at hm <;> simp only [List.mem_singleton, List.not_mem_nil] at hm <;>
    subst hm <;> rfl

lemma check_tab_characters_rule_id (t : Text) :
    ∀ m ∈ check_tab_characters t, m.rule_id = "tab-characters" := by
  intro m hm
  simp only [check_tab_characters] at hm
  split_ifs at hm <;> simp only [List.mem_singleton, List.not_mem_nil] at hm
  · subst hm; rfl

lemma check_double_hyphen_emdash_rule_id (t : Text) :
    ∀ m ∈ check_double_hyphen_emdash t, m.rule_id = "double-hyphen-emdash" := by
  intro m hm
  simp only [check_double_hyphen_emdash, List.mem_map] at hm
  obtain ⟨a, -, ha⟩ := hm
  subst ha; rfl

lemma check_hidden_characters_rule_id (t : Text) :
    ∀ m ∈ check_hidden_characters t, m.rule_id = "hidden-characters" := by
  intro m hm
  simp only [check_hidden_characters] at hm
  split_ifs at hm <;> simp only [List.mem_singleton, List.not_mem_nil] at hm
  · subst hm; rfl

lemma check_straight_vs_curly_quotes_rule_id (t : Text) :
    ∀ m ∈ check_straight_vs_curly_quotes t, m.rule_id = "straight-vs-curly-quotes" := by
  intro m hm
  simp only [check_straight_vs_curly_quotes] at hm
  split_ifs at hm <;> simp only [List.mem_singleton, List.not_mem_nil] at hm
  · subst hm; rfl

/-- Every check in the registry only produces matches bearing its own id. -/
lemma registry_rule_id :
    ∀ p ∈ registry, ∀ (t : Text), ∀ m ∈ p.2 t, m.rule_id = p.1 := by
  intro p hp
  fin_cases hp
  · exact fun t => check_double_spaces_rule_id t
  · exact fun t => check_repeated_words_rule_id t
  · exact fun t => check_missing_space_after_punct_rule_id t
  · exact fun t => check_space_before_punct_rule_id t
  · exact fun t => check_unclosed_brackets_rule_id t
  · exact fun t => check_trailing_whitespace_rule_id t
  · exact fun t => check_multiple_blank_lines_rule_id t
  · exact fun t => check_inconsistent_quotes_rule_id t
  · exact fun t => check_tab_characters_rule_id t
  · exact fun t => check_double_hyphen_emdash_rule_id t
  · exact fun t => check_hidden_characters_rule_id t
  · exact fun t => check_straight_vs_curly_quotes_rule_id t

lemma check_double_spaces_nil : check_double_spaces [] = [] := rfl

lemma check_repeated_words_nil : check_repeated_words [] = [] := rfl

lemma check_missing_space_after_punct_nil : check_missing_space_after_punct [] = [] := rfl

lemma check_space_before_punct_nil : check_space_before_punct [] = [] := rfl

lemma check_unclosed_brackets_nil : check_unclosed_brackets [] = [] := rfl

lemma check_trailing_whitespace_nil : check_trailing_whitespace [] = [] := rfl

lemma check_multiple_blank_lines_nil : check_multiple_blank_lines [] = [] := rfl

lemma check_inconsistent_quotes_nil : check_inconsistent_quotes [] = [] := rfl

lemma check_tab_characters_nil : check_tab_characters [] = [] := rfl

lemma check_double_hyphen_emdash_nil : check_double_hyphen_emdash [] = [] := rfl

lemma check_hidden_characters_nil : check_hidden_characters [] = [] := rfl

lemma check_straight_vs_curly_quotes_nil : check_straight_vs_curly_quotes [] = [] := rfl

/-- Filtering a block of matches that all bear rule id `r` by "not disabled"
keeps or drops the block whole. -/
lemma filter_notMem_of_rule_id {l : List RuleMatch} {r : String}
    (h : ∀ m ∈ l, m.rule_id = r) (S : List String) :
    (l.filter fun m => decide (m.rule_id ∉ S)) = if r ∈ S then [] else l := by
  split_ifs with hr
  · refine List.filter_eq_nil_iff.mpr ?_
    intro m hm
    simp [h m hm, hr]
  · refine List.filter_eq_self.mpr ?_
    intro m hm
    simp [h m hm, hr]

/-- `check_all` as the concatenation of the registry's blocks. -/
lemma check_all_eq_flatMap (S : List String) (t : Text) :
    check_all S t
      = (registry.map fun rf => (rf.1, if rf.1 ∈ S then [] else rf.2 t)).flatMap
          Prod.snd := by
  simp [check_all, registry]

/-- Every match of `check_all` bears one of the twelve registry rule ids. -/
lemma check_all_rule_id_mem (t : Text) (S : List String) :
    ∀ m ∈ check_all S t, m.rule_id ∈ catalogueOrder := by
  intro m hm
  rw [check_all_eq_flatMap] at hm
  simp only [List.mem_flatMap, List.mem_map] at hm
  obtain ⟨p, ⟨rf, hrf, rfl⟩, hmp⟩ := hm
  dsimp only at hmp
  split at hmp
  · exact absurd hmp (List.not_mem_nil m)
  · rw [registry_rule_id rf hrf t m hmp]
    exact List.mem_map_of_mem Prod.fst hrf

/-- Running with a disabled set `S` equals running with nothing disabled and
then removing exactly the matches whose rule id lies in `S`. -/
lemma check_all_eq_filter (t : Text) (S : List String) :
    check_all S t = (check_all [] t).filter fun m => decide (m.rule_id ∉ S) := by
  have base : check_all [] t =
      check_double_spaces t ++ check_repeated_words t
        ++ check_missing_space_after_punct t ++ check_space_before_punct t
        ++ check_unclosed_brackets t ++ check_trailing_whitespace t
        ++ check_multiple_blank_lines t ++ check_inconsistent_quotes t
        ++ check_tab_characters t ++ check_double_hyphen_emdash t
        ++ check_hidden_characters t ++ check_straight_vs_curly_quotes t := by
    simp [check_all]
  rw [base]
  simp only [List.filter_append,
    filter_notMem_of_rule_id (check_double_spaces_rule_id t) S,
    filter_notMem_of_rule_id (check_repeated_words_rule_id t) S,
    filter_notMem_of_rule_id (check_missing_space_after_punct_rule_id t) S,
    filter_notMem_of_rule_id (check_space_before_punct_rule_id t) S,
    filter_notMem_of_rule_id (check_unclosed_brackets_rule_id t) S,
    filter_notMem_of_rule_id (check_trailing_whitespace_rule_id t) S,
    filter_notMem_of_rule_id (check_multiple_blank_lines_rule_id t) S,
    filter_notMem_of_rule_id (check_inconsistent_quotes_rule_id t) S,
    filter_notMem_of_rule_id (check_tab_characters_rule_id t) S,
    filter_notMem_of_rule_id (check_double_hyphen_emdash_rule_id t) S,
    filter_notMem_of_rule_id (check_hidden_characters_rule_id t) S,
    filter_notMem_of_rule_id (check_straight_vs_curly_quotes_rule_id t) S]
  rfl

/-- Concatenating homogeneous blocks whose ids are listed in
nondecreasing `ruleIndex` order yields a rule-id sequence that is
nondecreasing in `ruleIndex`. -/
lemma pairwise_blocks (blocks : List (String × List RuleMatch))
    (hb : ∀ p ∈ blocks, ∀ m ∈ p.2, m.rule_id = p.1)
    (ho : (blocks.map Prod.fst).Pairwise fun a b => ruleIndex a ≤ ruleIndex b) :
    ((blocks.flatMap Prod.snd).map RuleMatch.rule_id).Pairwise
      fun a b => ruleIndex a ≤ ruleIndex b := by
  induction blocks with
  | nil => simp
  | cons p bs ih =>
    rw [List.map_cons, List.pairwise_cons] at ho
    rw [List.flatMap_cons, List.map_append, List.pairwise_append]
    refine ⟨?_, ?_, ?_⟩
    · refine List.pairwise_of_forall_mem_list fun a ha b hbm => ?_
      rw [List.mem_map] at ha hbm
      obtain ⟨ma, hma, rfl⟩ := ha
      obtain ⟨mb, hmb, rfl⟩ := hbm
      rw [hb p (List.mem_cons_self p bs) ma hma,
        hb p (List.mem_cons_self p bs) mb hmb]
    · exact ih (fun q hq => hb q (List.mem_cons_of_mem p hq)) ho.2
    · intro a ha b hbm
      rw [List.mem_map] at ha hbm
      obtain ⟨ma, hma, rfl⟩ := ha
      obtain ⟨mb, hmb, rfl⟩ := hbm
      rw [List.mem_flatMap] at hmb
      obtain ⟨q, hq, hmq⟩ := hmb
      rw [hb p (List.mem_cons_self p bs) ma hma,
        hb q (List.mem_cons_of_mem p hq) mb hmq]
      exact ho.1 q.1 (List.mem_map_of_mem Prod.fst hq)

/-- In a concatenation of homogeneous blocks with pairwise-distinct ids,
filtering by one block's id recovers exactly that block. -/
lemma filter_beq_flatMap (blocks : List (String × List RuleMatch))
    (hb : ∀ p ∈ blocks, ∀ m ∈ p.2, m.rule_id = p.1)
    (hnd : (blocks.map Prod.fst).Nodup) :
    ∀ p ∈ blocks,
      ((blocks.flatMap Prod.snd).filter fun m => m.rule_id == p.1) = p.2 := by
  induction blocks with
  | nil => simp
  | cons q bs ih =>
    intro p hp
    rw [List.map_cons, List.nodup_cons] at hnd
    rw [List.flatMap_cons, List.filter_append]
    rcases List.mem_cons.mp hp with rfl | hp
    · have h1 : (p.2.filter fun m => m.rule_id == p.1) = p.2 :=
        List.filter_eq_self.mpr fun m hm => by
          rw [hb p (List.mem_cons_self p bs) m hm]
          exact beq_self_eq_true p.1
      have h2 : ((bs.flatMap Prod.snd).filter fun m => m.rule_id == p.1) = [] := by
        refine List.filter_eq_nil_iff.mpr ?_
        intro m hm
        rw [List.mem_flatMap] at hm
        obtain ⟨r, hr, hmr⟩ := hm
        rw [hb r (List.mem_cons_of_mem p hr) m hmr]
        simp only [beq_iff_eq]
        intro hEq
        apply hnd.1
        rw [← hEq]
        exact List.mem_map_of_mem Prod.fst hr
      rw [h1, h2, List.append_nil]
    · have h1 : (q.2.filter fun m => m.rule_id == p.1) = [] := by
        refine List.filter_eq_nil_iff.mpr ?_
        intro m hm
        rw [hb q (List.mem_cons_self q bs) m hm]
        simp only [beq_iff_eq]
        intro hEq
        apply hnd.1
        rw [hEq]
        exact List.mem_map_of_mem Prod.fst hp
      rw [h1, List.nil_append]
      exact ih (fun r hr => hb r (List.mem_cons_of_mem q hr)) hnd.2 p hp

/-- A letter never belongs to the punctuation set. -/
lemma not_mem_punct_of_isAlpha {c : Char} (h : c.isAlpha = true) :
    c ∉ punctChars := by
  intro hc
  fin_cases hc <;> exact absurd h (by decide)

/-- The scan stops once the position passes the end of the text. -/
lemma finditerAux_stop {α : Type} {len fuel i : Nat} {f : Nat → Option (Nat × α)}
    (hil : len ≤ i) : finditerAux len f fuel i = [] := by
  cases fuel
  · rfl
  · rw [finditerAux, if_pos hil]

/-- One scan step on a failed match attempt. -/
lemma finditerAux_succ_none {α : Type} {len : Nat} {f : Nat → Option (Nat × α)}
    {fuel i : Nat} (hil : i < len) (h : f i = none) :
    finditerAux len f (fuel + 1) i = finditerAux len f fuel (i + 1) := by
  rw [finditerAux, if_neg (Nat.not_le.mpr hil), h]

/-- One scan step on a successful match attempt. -/
lemma finditerAux_succ_some {α : Type} {len : Nat} {f : Nat → Option (Nat × α)}
    {fuel i e : Nat} {a : α} (hil : i < len) (h : f i = some (e, a)) :
    finditerAux len f (fuel + 1) i = a :: finditerAux len f fuel (max e (i + 1)) := by
  rw [finditerAux, if_neg (Nat.not_le.mpr hil), h]

/-- What a successful punct-letter match attempt implies. -/
lemma tryPunctLetterAt_eq_some {t : Text} {i e : Nat} {a : Nat × Char × Char}
    (h : tryPunctLetterAt t i = some (e, a)) :
    e = i + 2 ∧ a.1 = i ∧ t.get? i = some a.2.1 ∧ t.get? (i + 1) = some a.2.2
      ∧ a.2.1 ∈ punctChars ∧ a.2.2.isAlpha = true := by
  unfold tryPunctLetterAt at h
  split at h
  · rename_i p c hgp hgc
    split at h
    · rename_i hcond
      injection h with h2
      injection h2 with h2a h2b
      subst h2a
      subst h2b
      exact ⟨rfl, rfl, hgp, hgc, hcond.1, hcond.2⟩
    · exact Option.noConfusion h
  · exact Option.noConfusion h

/-- The finditer scan of the punct-letter pattern is, in effect, a scan of
every position: a successful match ends with a letter, at which no new match
can start, so the two-position jump after a match never skips a hit. -/
lemma finditer_punctLetter (t : Text) :
    ∀ fuel i, t.length - i < fuel →
      finditerAux t.length (tryPunctLetterAt t) fuel i
        = (List.range' i (t.length - i)).filterMap
            fun n => (tryPunctLetterAt t n).map Prod.snd := by
  intro fuel
  induction fuel with
  | zero => exact fun i hfi => absurd hfi (Nat.not_lt_zero _)
  | succ fuel ih =>
    intro i hfi
    by_cases hil : t.length ≤ i
    · rw [finditerAux_stop hil]
      have h0 : t.length - i = 0 := by omega
      rw [h0]
      rfl
    · push_neg at hil
      have hk : t.length - i = (t.length - (i + 1)) + 1 := by omega
      rw [hk, List.range'_succ]
      cases htry : tryPunctLetterAt t i with
      | none =>
        rw [finditerAux_succ_none hil htry, List.filterMap_cons]
        simp only [htry, Option.map_none']
        exact ih (i + 1) (by omega)
      | some ea =>
        obtain ⟨e, a⟩ := ea
        obtain ⟨he2, -, -, hgc, -, hcA⟩ := tryPunctLetterAt_eq_some htry
        subst he2
        rw [finditerAux_succ_some hil htry, List.filterMap_cons]
        simp only [htry, Option.map_some']
        rw [max_eq_left (by omega)]
        congr 1
        rw [ih (i + 2) (by omega)]
        by_cases hi1 : i + 1 < t.length
        · have hk2 : t.length - (i + 1) = (t.length - (i + 2)) + 1 := by omega
          rw [hk2, List.range'_succ, List.filterMap_cons]
          have hnone : tryPunctLetterAt t (i + 1) = none := by
            unfold tryPunctLetterAt
            rw [hgc]
            cases hg2 : t.get? (i + 1 + 1)
            · rfl
            · exact if_neg fun hAnd => not_mem_punct_of_isAlpha hcA hAnd.1
          simp only [hnone, Option.map_none']
        · have ha1 : t.length - (i + 1) = 0 := by omega
          have ha2 : t.length - (i + 2) = 0 := by omega
          rw [ha1, ha2]
          rfl

/-- Pushing a pointwise `if`-shape through `filterMap`. -/
lemma filterMap_eq_filter_map {α β : Type} (f : α → Option β) (p : α → Bool)
    (g : α → β) (hf : ∀ a, f a = if p a then some (g a) else none) (l : List α) :
    l.filterMap f = (l.filter p).map g := by
  induction l with
  | nil => rfl
  | cons a l ih =>
    rw [List.filterMap_cons, List.filter_cons, hf a]
    by_cases hp : p a <;> simp [hp, ih]

/-- Pointwise shape of the missing-space-after-punct scan at one position:
the pattern attempt followed by the in-loop exclusions equals the spec-side
condition guarding the spec-side emitted record. -/
lemma msp_pointwise (t : Text) (n : Nat) :
    ((tryPunctLetterAt t n).map Prod.snd).bind (fun m =>
      if urlMarkers.any (fun u =>
          containsSub u ((slice t (m.1 - 10) m.1).map Char.toLower)) then none
      else if m.2.1 = '.' ∧ 0 < m.1 ∧ (t.get? (m.1 - 1)).any Char.isDigit then none
      else some
        { rule_id := "missing-space-after-punct"
          rule_name := "Missing Space After Punctuation"
          category := "spacing"
          severity := "medium"
          text := String.mk (slice t m.1 (m.1 + 2))
          suggestion := String.mk [m.2.1, ' ', m.2.2]
          location := "Line " ++ toString (get_line_number t m.1)
          context := get_context t m.1 (m.1 + 2) })
      = if mspSpec t n then some (mspEmit t n) else none := by
  unfold tryPunctLetterAt mspSpec
  cases hgp : t.get? n <;> cases hgc : t.get? (n + 1)
  · rfl
  · rfl
  · rfl
  · rename_i p c
    dsimp only
    by_cases h1 : p ∈ punctChars ∧ c.isAlpha = true
    · rw [if_pos h1]
      simp only [Option.map_some', Option.some_bind]
      rw [decide_eq_true h1.1, h1.2]
      by_cases h2 : urlMarkers.any (fun u =>
          containsSub u ((slice t (n - 10) n).map Char.toLower)) = true
      · rw [if_pos h2, h2]
        simp
      · rw [Bool.not_eq_true] at h2
        rw [if_neg (by simp [h2]), h2]
        by_cases h3 : p = '.' ∧ 0 < n ∧ (t.get? (n - 1)).any Char.isDigit = true
        · rw [if_pos h3, decide_eq_true h3]
          simp
        · rw [if_neg h3, decide_eq_false h3]
          simp only [Bool.not_false, Bool.true_and, Bool.and_true, Bool.and_self,
            if_true]
          unfold mspEmit
          rw [hgp, hgc]
          rfl
    · rw [if_neg h1]
      simp only [Option.map_none', Option.none_bind]
      by_cases hp2 : p ∈ punctChars
      · have hc2 : c.isAlpha = false := by
          cases hf : c.isAlpha
          · rfl
          · exact absurd ⟨hp2, hf⟩ h1
        simp [hc2]
      · simp [hp2]

/-- The missing-space-after-punct check equals the position filter given by
the spec-side condition, mapped through the emitted record. -/
lemma check_msp_eq (t : Text) :
    check_missing_space_after_punct t
      = ((List.range t.length).filter (mspSpec t)).map (mspEmit t) := by
  unfold check_missing_space_after_punct
  show ((finditerAux t.length (tryPunctLetterAt t) (t.length + 1) 0).filterMap _)
    = _
  rw [finditer_punctLetter t (t.length + 1) 0 (by omega)]
  rw [Nat.sub_zero, ← List.range_eq_range']
  rw [List.filterMap_filterMap]
  exact filterMap_eq_filter_map _ (mspSpec t) (mspEmit t) (msp_pointwise t)
    (List.range t.length)

/-! ### Claims -/

/-- C1: the output with a disabled-rule set `S` is the output with nothing
disabled minus exactly the matches whose `rule_id` lies in `S`, and
disabling an id that is not one of the twelve registry rule ids is a no-op. -/
theorem claim_C1_disable_filters (t : Text) (S : List String) :
    (check_all S t = (check_all [] t).filter fun m => decide (m.rule_id ∉ S)) ∧
    ∀ r, r ∉ catalogueOrder → check_all (r :: S) t = check_all S t := by
  refine ⟨check_all_eq_filter t S, ?_⟩
  intro r hr
  rw [check_all_eq_filter t (r :: S), check_all_eq_filter t S]
  refine List.filter_congr ?_
  intro m hm
  have hid := check_all_rule_id_mem t [] m hm
  have hne : m.rule_id ≠ r := fun hEq => hr (hEq ▸ hid)
  simp [List.mem_cons, hne]

/-- Witness for C1 at a concrete input: disabling the unknown id
`no-such-rule` on top of a disabled set changes nothing. -/
theorem claim_C1_witness :
    check_all ("no-such-rule" :: ["double-spaces"]) ("x. y".data)
      = check_all ["double-spaces"] ("x. y".data) :=
  (claim_C1_disable_filters ("x. y".data) ["double-spaces"]).2 "no-such-rule" (by decide)

/-- C2: for every text and disabled set, the rule ids in the output of
`check_all` follow the declared catalogue order (nondecreasing
`ruleIndex`), and within one rule the matches are exactly that rule's own
check output in its discovery order. -/
theorem claim_C2_catalogue_order (t : Text) (S : List String) :
    ((check_all S t).map RuleMatch.rule_id).Pairwise
        (fun a b => ruleIndex a ≤ ruleIndex b) ∧
    ∀ rf ∈ registry,
      ((check_all S t).filter fun m => m.rule_id == rf.1)
        = if rf.1 ∈ S then [] else rf.2 t := by
  have hb : ∀ p ∈ registry.map fun rf => (rf.1, if rf.1 ∈ S then [] else rf.2 t),
      ∀ m ∈ p.2, m.rule_id = p.1 := by
    intro p hp m hm
    rw [List.mem_map] at hp
    obtain ⟨rf, hrf, rfl⟩ := hp
    dsimp only at hm ⊢
    split at hm
    · exact absurd hm (List.not_mem_nil m)
    · exact registry_rule_id rf hrf t m hm
  have hmap : ((registry.map fun rf => (rf.1, if rf.1 ∈ S then [] else rf.2 t)).map
      Prod.fst) = catalogueOrder := by
    simp [registry, catalogueOrder]
  constructor
  · rw [check_all_eq_flatMap]
    refine pairwise_blocks _ hb ?_
    rw [hmap]
    decide
  · intro rf hrf
    rw [check_all_eq_flatMap]
    exact filter_beq_flatMap _ hb (by rw [hmap]; decide)
      (rf.1, if rf.1 ∈ S then [] else rf.2 t) (List.mem_map_of_mem _ hrf)

/-- Witness for C2 at a concrete input. -/
theorem claim_C2_witness :
    ((check_all ["repeated-words"] ("a  b".data)).filter
        fun m => m.rule_id == "double-spaces")
      = if "double-spaces" ∈ ["repeated-words"] then []
        else check_double_spaces ("a  b".data) :=
  (claim_C2_catalogue_order ("a  b".data) ["repeated-words"]).2
    ("double-spaces", check_double_spaces) (by simp [registry])

/-- C5: for each bracket pair, evaluated independently, the unclosed-brackets
check emits exactly one match iff the opening and closing counts differ,
always with severity "high" and a direction-aware rule name; the whole check
is the concatenation over the three pairs; on `(a, (b)` it yields exactly
one match, for `(`, stating one unclosed parenthesis, and on `(a, b)` it
yields none. -/
theorem claim_C5_unclosed_brackets (t : Text) (oc : Char × Char)
    (hoc : oc ∈ bracketPairs) :
    ((bracketPairMatches t oc).length
        = if t.count oc.1 = t.count oc.2 then 0 else 1) ∧
    (∀ m ∈ bracketPairMatches t oc,
      m.severity = "high" ∧
      (t.count oc.2 < t.count oc.1 → m.rule_name = "Unclosed Bracket") ∧
      (t.count oc.1 < t.count oc.2 → m.rule_name = "Extra Closing Bracket")) ∧
    check_unclosed_brackets t = bracketPairs.flatMap (bracketPairMatches t) ∧
    (check_unclosed_brackets ("(a, (b)".data)).map (fun m => (m.rule_name, m.text))
      = [("Unclosed Bracket", "1 unclosed " ++ pyRepr "(")] ∧
    check_unclosed_brackets ("(a, b)".data) = [] := by
  refine ⟨?_, ?_, rfl, by decide, by decide⟩
  · simp only [bracketPairMatches]
    split_ifs <;> rfl
  · intro m hm
    simp only [bracketPairMatches] at hm
    split_ifs at hm with h1 h2 <;>
      simp only [List.mem_singleton, List.not_mem_nil] at hm <;> subst hm
    · exact ⟨rfl, fun _ => rfl, fun h => absurd h (by omega)⟩
    · exact ⟨rfl, fun h => absurd h h2, fun _ => rfl⟩

/-- Witness for C5 at a concrete input. -/
theorem claim_C5_witness :
    (bracketPairMatches ("(a, (b)".data) ('(', ')')).length
      = if ("(a, (b)".data).count '(' = ("(a, (b)".data).count ')' then 0 else 1 :=
  (claim_C5_unclosed_brackets ("(a, (b)".data) ('(', ')') (by decide)).1

/-- C8: for any span `[s, e)` within the document bounds, the context helper
returns the window extending up to 30 characters before `s` and up to 30
after `e`, clipped to the document, with `...` prepended exactly when
characters before the window were cut off and `...` appended exactly when
characters after it were; the helper is a total function, so spans at
position 0 or at the document end cannot fault. -/
theorem claim_C8_context_window (t : Text) (s e : Nat)
    (hse : s ≤ e) (het : e ≤ t.length) :
    get_context t s e
      = String.mk ((if 0 < s - min s CONTEXT_CHARS then "...".data else [])
          ++ slice t (s - min s CONTEXT_CHARS)
              (e + min (t.length - e) CONTEXT_CHARS)
          ++ (if e + min (t.length - e) CONTEXT_CHARS < t.length then "...".data
              else [])) := by
  have ha : s - CONTEXT_CHARS = s - min s CONTEXT_CHARS := by
    simp only [CONTEXT_CHARS]; omega
  have hb : min t.length (e + CONTEXT_CHARS) = e + min (t.length - e) CONTEXT_CHARS := by
    simp only [CONTEXT_CHARS]; omega
  simp only [get_context]
  rw [ha, hb]
  split_ifs <;> rfl

/-- Witness for C8 at a concrete boundary span (whole document). -/
theorem claim_C8_witness :
    get_context ("abcd".data) 0 4
      = String.mk ((if 0 < 0 - min 0 CONTEXT_CHARS then "...".data else [])
          ++ slice ("abcd".data) (0 - min 0 CONTEXT_CHARS)
              (4 + min (("abcd".data).length - 4) CONTEXT_CHARS)
          ++ (if 4 + min (("abcd".data).length - 4) CONTEXT_CHARS
                < ("abcd".data).length then "...".data
              else [])) :=
  claim_C8_context_window ("abcd".data) 0 4 (by decide) (by decide)

/-- C4, counterexample: on `a  b` the double-spaces check produces one match
whose `text` field is the Python `repr` of the two-space run — the
quote-wrapped string `'  '` — which is not `text[start:end]` for any span of
the input, so the matched text of a double-spaces finding is not the literal
offending substring. -/
theorem claim_C4_counterexample :
    (check_double_spaces ("a  b".data)).map (fun m => m.text) = [pyRepr "  "] ∧
    ∀ s, s ≤ 4 → ∀ e, e ≤ 4 →
      String.mk (slice ("a  b".data) s e) ≠ pyRepr "  " := by decide

/-- C4, amended: every point finding arises from a span discovered by its
own check's scan, and is exactly the record emitted for that span — its
`text` the literal offending substring `text[start:end]` of that very span
(its `location` and `context` are built from the same span) for the
repeated-words, space-before-punct, missing-space-after-punct and
double-hyphen checks, but for the double-spaces check the `text` is the
Python `repr` of that substring (the run of spaces wrapped in quotes), not
the substring itself. -/
theorem claim_C4_amended (t : Text) :
    (∀ m ∈ check_double_spaces t, ∃ se ∈ doubleSpaceSpans t,
      m = { rule_id := "double-spaces"
            rule_name := "Double Spaces"
            category := "spacing"
            severity := "medium"
            text := pyRepr (String.mk (slice t se.1 se.2))
            suggestion := "Replace with single space"
            location := "Line " ++ toString (get_line_number t se.1)
              ++ ", position " ++ toString se.1
            context := get_context t se.1 se.2 }) ∧
    (∀ m ∈ check_repeated_words t, ∃ a ∈ finditer t (tryRepeatedAt t),
      m = { rule_id := "repeated-words"
            rule_name := "Repeated Word"
            category := "grammar"
            severity := "high"
            text := String.mk (slice t a.1 a.2.1)
            suggestion := "Remove duplicate " ++ squoteStr ++ String.mk a.2.2 ++ squoteStr
            location := "Line " ++ toString (get_line_number t a.1)
            context := get_context t a.1 a.2.1 }) ∧
    (∀ m ∈ check_space_before_punct t, ∃ a ∈ finditer t (trySpacePunctAt t),
      m = { rule_id := "space-before-punct"
            rule_name := "Space Before Punctuation"
            category := "spacing"
            severity := "medium"
            text := String.mk (slice t a.1 a.2.1)
            suggestion := String.mk [a.2.2.1, a.2.2.2]
            location := "Line " ++ toString (get_line_number t a.1)
            context := get_context t a.1 a.2.1 }) ∧
    (∀ m ∈ check_missing_space_after_punct t, ∃ a ∈ finditer t (tryPunctLetterAt t),
      m = { rule_id := "missing-space-after-punct"
            rule_name := "Missing Space After Punctuation"
            category := "spacing"
            severity := "medium"
            text := String.mk (slice t a.1 (a.1 + 2))
            suggestion := String.mk [a.2.1, ' ', a.2.2]
            location := "Line " ++ toString (get_line_number t a.1)
            context := get_context t a.1 (a.1 + 2) }) ∧
    (∀ m ∈ check_double_hyphen_emdash t, ∃ a ∈ finditer t (tryDoubleHyphenAt t),
      m = { rule_id := "double-hyphen-emdash"
            rule_name := "Double Hyphen Instead of Em-Dash"
            category := "formatting"
            severity := "low"
            text := String.mk (slice t a.1 a.2.1)
            suggestion := String.mk [a.2.2.1, '—', a.2.2.2]
            location := "Line " ++ toString (get_line_number t a.1)
            context := get_context t a.1 a.2.1 }) := by
  refine ⟨?_, ?_, ?_, ?_, ?_⟩
  · intro m hm
    simp only [check_double_spaces, List.mem_filterMap] at hm
    obtain ⟨se, hse, ha⟩ := hm
    split at ha
    · exact Option.noConfusion ha
    · injection ha with h; exact ⟨se, hse, h.symm⟩
  · intro m hm
    simp only [check_repeated_words, List.mem_filterMap] at hm
    obtain ⟨a, haf, ha⟩ := hm
    split at ha
    · exact Option.noConfusion ha
    · injection ha with h; exact ⟨a, haf, h.symm⟩
  · intro m hm
    simp only [check_space_before_punct, List.mem_map] at hm
    obtain ⟨a, haf, ha⟩ := hm
    exact ⟨a, haf, ha.symm⟩
  · intro m hm
    simp only [check_missing_space_after_punct, List.mem_filterMap] at hm
    obtain ⟨a, haf, ha⟩ := hm
    split at ha
    · exact Option.noConfusion ha
    · split at ha
      · exact Option.noConfusion ha
      · injection ha with h; exact ⟨a, haf, h.symm⟩
  · intro m hm
    simp only [check_double_hyphen_emdash, List.mem_map] at hm
    obtain ⟨a, haf, ha⟩ := hm
    exact ⟨a, haf, ha.symm⟩

/-- Witness for the amended C4 at a concrete input. -/
theorem claim_C4_witness :
    ∃ se ∈ doubleSpaceSpans ("a  b".data),
      (check_double_spaces ("a  b".data)).get ⟨0, by decide⟩
        = { rule_id := "double-spaces"
            rule_name := "Double Spaces"
            category := "spacing"
            severity := "medium"
            text := pyRepr (String.mk (slice ("a  b".data) se.1 se.2))
            suggestion := "Replace with single space"
            location := "Line " ++ toString (get_line_number ("a  b".data) se.1)
              ++ ", position " ++ toString se.1
            context := get_context ("a  b".data) se.1 se.2 } :=
  (claim_C4_amended ("a  b".data)).1 _ (List.get_mem _ _ _)

/-- C10: among the point checks only double-spaces puts a position in its
`location`, and that position is the absolute 0-based character offset of
the match in the whole document (the offset passed to the line-number
helper), not the column within the line; every other point check reports
only `Line N`.  Concretely, on `ab\ncd  e` the double-space at document
offset 5 — column 2 of line 2 — is reported as `Line 2, position 5`. -/
theorem claim_C10_locations (t : Text) :
    (∀ m ∈ check_double_spaces t, ∃ se ∈ doubleSpaceSpans t,
      m.location = "Line " ++ toString (get_line_number t se.1)
        ++ ", position " ++ toString se.1) ∧
    (∀ m ∈ check_repeated_words t, ∃ n : Nat, m.location = "Line " ++ toString n) ∧
    (∀ m ∈ check_missing_space_after_punct t, ∃ n : Nat,
      m.location = "Line " ++ toString n) ∧
    (∀ m ∈ check_space_before_punct t, ∃ n : Nat, m.location = "Line " ++ toString n) ∧
    (∀ m ∈ check_multiple_blank_lines t, ∃ n : Nat, m.location = "Line " ++ toString n) ∧
    (∀ m ∈ check_double_hyphen_emdash t, ∃ n : Nat, m.location = "Line " ++ toString n) ∧
    doubleSpaceSpans ("ab\ncd  e".data) = [(5, 7)] ∧
    (check_double_spaces ("ab\ncd  e".data)).map (fun m => m.location)
      = ["Line 2, position 5"] := by
  refine ⟨?_, ?_, ?_, ?_, ?_, ?_, by decide, by decide⟩
  · intro m hm
    simp only [check_double_spaces, List.mem_filterMap] at hm
    obtain ⟨se, hse, ha⟩ := hm
    split at ha
    · exact Option.noConfusion ha
    · injection ha with h; subst h; exact ⟨se, hse, rfl⟩
  · intro m hm
    simp only [check_repeated_words, List.mem_filterMap] at hm
    obtain ⟨a, -, ha⟩ := hm
    split at ha
    · exact Option.noConfusion ha
    · injection ha with h; subst h; exact ⟨get_line_number t a.1, rfl⟩
  · intro m hm
    simp only [check_missing_space_after_punct, List.mem_filterMap] at hm
    obtain ⟨a, -, ha⟩ := hm
    split at ha
    · exact Option.noConfusion ha
    · split at ha
      · exact Option.noConfusion ha
      · injection ha with h; subst h; exact ⟨get_line_number t a.1, rfl⟩
  · intro m hm
    simp only [check_space_before_punct, List.mem_map] at hm
    obtain ⟨a, -, ha⟩ := hm
    subst ha; exact ⟨get_line_number t a.1, rfl⟩
  · intro m hm
    simp only [check_multiple_blank_lines, List.mem_map] at hm
    obtain ⟨a, -, ha⟩ := hm
    subst ha; exact ⟨get_line_number t a.1, rfl⟩
  · intro m hm
    simp only [check_double_hyphen_emdash, List.mem_map] at hm
    obtain ⟨a, -, ha⟩ := hm
    subst ha; exact ⟨get_line_number t a.1, rfl⟩

/-- C6, counterexample: on `Visit www.example.com` the check does NOT yield
zero matches — it yields two (`.e` and `.c`), because the 10-character
lookback windows (`Visit www` and `ww.example`) contain none of the markers
`http`, `www.`, `ftp`, `.com`, `.org`: the dot that would complete `www.` or
begin `.com` sits at the match position itself, just outside the window. -/
theorem claim_C6_counterexample :
    (check_missing_space_after_punct ("Visit www.example.com".data)).map
        (fun m => m.text) = [".e", ".c"] ∧
    check_missing_space_after_punct ("Visit www.example.com".data) ≠ [] := by
  decide

/-- C6, amended: the missing-space-after-punct check matches exactly the
positions where one of `. , ; : ! ?` is immediately followed by a letter,
except when a URL marker occurs (case-insensitively) in the 10 characters
immediately before the punctuation or the punctuation is a decimal point
preceded by a digit; on `Hello,world` it yields one match with text `,w`
and suggestion `, w`; on `The price is 3.5 dollars` zero matches; but on
`Visit www.example.com` it yields the two matches `.e` and `.c` (the markers
fall outside both lookback windows), not zero. -/
theorem claim_C6_amended (t : Text) :
    check_missing_space_after_punct t
      = ((List.range t.length).filter (mspSpec t)).map (mspEmit t) ∧
    (check_missing_space_after_punct ("Hello,world".data)).map
        (fun m => (m.text, m.suggestion)) = [(",w", ", w")] ∧
    (check_missing_space_after_punct ("Visit www.example.com".data)).map
        (fun m => m.text) = [".e", ".c"] ∧
    check_missing_space_after_punct ("The price is 3.5 dollars".data) = [] :=
  ⟨check_msp_eq t, by decide, by decide, by decide⟩

/-- Witness for C10 at a concrete input. -/
theorem claim_C10_witness :
    ∃ se ∈ doubleSpaceSpans ("ab\ncd  e".data),
      ((check_double_spaces ("ab\ncd  e".data)).get ⟨0, by decide⟩).location
        = "Line " ++ toString (get_line_number ("ab\ncd  e".data) se.1)
          ++ ", position " ++ toString se.1 :=
  (claim_C10_locations ("ab\ncd  e".data)).1 _ (List.get_mem _ _ _)

/-- C3: for every Unicode input text, including the empty one, and every
disabled-rule set, `check_all` terminates with a (possibly empty) list of
matches.  The embedding is a total function (the `fuel` arguments of its
scanning loops are proved sufficient in the `finditer` refinement lemmas
below), so termination and the absence of unhandled faults hold by
construction, and purity — no mutation of the input, no I/O — holds because
the embedding is a pure function of the text. -/
theorem claim_C3_total (t : Text) (disabled : List String) :
    ∃ ms : List RuleMatch, check_all disabled t = ms :=
  ⟨check_all disabled t, rfl⟩

/-- C7: `check_all` is deterministic — two invocations on equal text with
equal disabled-rule sets return element-for-element equal outputs; in the
embedding there is no hidden state for it to depend on. -/
theorem claim_C7_deterministic (t₁ t₂ : Text) (d₁ d₂ : List String)
    (ht : t₁ = t₂) (hd : d₁ = d₂) : check_all d₁ t₁ = check_all d₂ t₂ := by
  rw [ht, hd]

/-- Witness for C7 at a concrete input. -/
theorem claim_C7_witness :
    check_all ["tab-characters"] ("a  b".data) = check_all ["tab-characters"] ("a  b".data) :=
  claim_C7_deterministic ("a  b".data) ("a  b".data) ["tab-characters"] ["tab-characters"] rfl rfl

/-- C9: on the empty string every one of the twelve checks — the point
checks and the aggregate checks alike — produces no match, so `check_all`
returns the empty list for every disabled-rule set. -/
theorem claim_C9_empty (disabled : List String) : check_all disabled [] = [] := by
  simp only [check_all, check_double_spaces_nil, check_repeated_words_nil,
    check_missing_space_after_punct_nil, check_space_before_punct_nil,
    check_unclosed_brackets_nil, check_trailing_whitespace_nil,
    check_multiple_blank_lines_nil, check_inconsistent_quotes_nil,
    check_tab_characters_nil, check_double_hyphen_emdash_nil,
    check_hidden_characters_nil, check_straight_vs_curly_quotes_nil,
    ite_self, List.append_nil]

end DocAnalyzer

